import Mathlib

/-!
Shallow embedding of the eight benchmark programs of this repository:
`bench/fib.cpp`, `bench/fib30/fib.c`, `bench/sum_range/sum_range.cpp`,
`bench/map_filter/map_filter.c`, `bench/string_ops/string_ops.c`,
`bench/string_ops/string_ops.cpp`, `bench/data_transform/data_transform.c`
and `bench/data_transform/data_transform.cpp`.

Machine `long`/`int` values are embedded as `Int` (no computation here comes
near 2^31, so overflow never fires and is not modelled), `size_t` values as
`Nat`, C strings and `std::string` as `List Char`.  Each `main` is a function
from an (unread) process environment to a process result (the full standard
output and the exit code).  Every `for` loop is embedded as its guard and its
body (step function), executed by a bounded iterator `loopIter`; a fuel-based
interpreter `whileFuel` of the same guard/step is used to express that the
loops actually reach their bounds.
-/

/-- The process environment a C program could read: command-line arguments,
environment variables and standard input.  None of the eight programs reads
any of it. -/
structure Env where
  argv : List String
  envVars : List (String × String)
  stdin : String

/-- Observable result of a program run: everything written to standard
output, and the process exit code. -/
structure ProcResult where
  stdout : String
  exitCode : Int
deriving DecidableEq

/-- Run a loop with guard `g` and loop body `st` for at most `r` guard
evaluations: the bounded execution of `for (...; g; ...) st`. -/
def loopIter {σ : Type} (g : σ → Bool) (st : σ → σ) : Nat → σ → σ
  | 0, s => s
  | r+1, s => if g s then loopIter g st r (st s) else s

/-- Fuel-based interpreter for the same loop: `none` means the fuel ran out
before the guard became false, `some s` means the loop terminated in state
`s`.  Used to state that each loop in the repository terminates. -/
def whileFuel {σ : Type} (g : σ → Bool) (st : σ → σ) : Nat → σ → Option σ
  | 0, _ => none
  | f+1, s => if g s then whileFuel g st f (st s) else some s

/-- `long fib(long n) { if (n <= 1) return n; return fib(n - 1) + fib(n - 2); }`
from `bench/fib.cpp` and `bench/fib30/fib.c` (the two files define the same
function). -/
def fib (n : Int) : Int :=
  if n ≤ 1 then n else fib (n - 1) + fib (n - 2)
termination_by n.toNat
decreasing_by
  all_goals simp only [not_le] at *
  all_goals omega

/-- Fuel-indexed evaluation of the recursive `fib`: `none` when the call tree
is deeper than the fuel allows.  Used to state that the recursion of `fib`
terminates. -/
def fibFuel : Nat → Int → Option Int
  | 0, _ => none
  | f+1, n =>
    if n ≤ 1 then some n
    else
      match fibFuel f (n - 1), fibFuel f (n - 2) with
      | some a, some b => some (a + b)
      | _, _ => none

/-- Modelled from the spec: the decimal rendering of a nonnegative integer as
produced by `sprintf(buf, "%d", i)` and by `std::to_string(i)` (library code
that is not part of this repository): the usual base-10 digit string. -/
def decDigits (n : Nat) : List Char :=
  if n < 10 then [Char.ofNat (48 + n)]
  else decDigits (n / 10) ++ [Char.ofNat (48 + n % 10)]
termination_by n
decreasing_by
  simp only [not_lt] at *
  omega

/-- Number of decimal digits of `n`: the length of its rendering. -/
def dlen (n : Nat) : Nat := (decDigits n).length

/-! ## `bench/fib.cpp` and `bench/fib30/fib.c` -/

/-- `main` of `bench/fib30/fib.c`: `long result = fib(30); printf("%ld\n", result);
return 0;`.  The environment is never read. -/
def fib_c_main (_ : Env) : ProcResult :=
  ⟨toString (fib 30) ++ "\n", 0⟩

/-- `main` of `bench/fib.cpp`: `long result = fib(30); std::cout << result <<
std::endl; return 0;`.  The environment is never read. -/
def fib_cpp_main (_ : Env) : ProcResult :=
  ⟨toString (fib 30) ++ "\n", 0⟩

/-! ## `bench/sum_range/sum_range.cpp` -/

/-- Loop state of `sum_range.cpp`: the counter `i` and the accumulator `sum`,
both `long`. -/
structure SumRangeState where
  i : Int
  sum : Int
deriving DecidableEq

/-- Guard of the `sum_range.cpp` loop: `i < 1000000`. -/
def srGuard (s : SumRangeState) : Bool := s.i < 1000000

/-- Body of the `sum_range.cpp` loop: `sum += i;` then `i++`. -/
def srStep (s : SumRangeState) : SumRangeState := ⟨s.i + 1, s.sum + s.i⟩

/-- `main` of `sum_range.cpp`: run the loop from `i = 0`, `sum = 0` (the guard
is evaluated at most 1000001 times), print `sum`, return 0. -/
def sum_range_main (_ : Env) : ProcResult :=
  ⟨toString (loopIter srGuard srStep 1000001 ⟨0, 0⟩).sum ++ "\n", 0⟩

/-! ## `bench/map_filter/map_filter.c` -/

/-- Loop state of `map_filter.c`: `long i`, `long sum`, `int count`. -/
structure MapFilterState where
  i : Int
  sum : Int
  count : Int
deriving DecidableEq

/-- Guard of the `map_filter.c` loop: `i < 100000 && count < 10000`. -/
def mfGuard (s : MapFilterState) : Bool := s.i < 100000 && s.count < 10000

/-- Body of the `map_filter.c` loop:
`if (i % 2 == 1) { sum += i * i; count++; }` then `i++`. -/
def mfStep (s : MapFilterState) : MapFilterState :=
  if s.i % 2 = 1 then ⟨s.i + 1, s.sum + s.i * s.i, s.count + 1⟩
  else ⟨s.i + 1, s.sum, s.count⟩

/-- `main` of `map_filter.c`: run the loop from `i = 0`, `sum = 0`,
`count = 0`, print `sum`, return 0. -/
def map_filter_main (_ : Env) : ProcResult :=
  ⟨toString (loopIter mfGuard mfStep 100001 ⟨0, 0, 0⟩).sum ++ "\n", 0⟩

/-! ## `bench/string_ops/string_ops.c` -/

/-- The token written into `buf` by `sprintf(buf, "ITEM-%d", i)` in
`string_ops.c` (for the nonnegative `i` the loop produces). -/
def cToken (i : Nat) : List Char := "ITEM-".data ++ decDigits i

/-- Loop state of `string_ops.c`: `int i`, the bytes so far written into
`result`, and `size_t len`. -/
structure StringOpsCState where
  i : Nat
  result : List Char
  len : Nat
deriving DecidableEq

/-- Guard of the `string_ops.c` loop: `i < 10000`. -/
def socGuard (s : StringOpsCState) : Bool := s.i < 10000

/-- Body of the `string_ops.c` loop: format `buf`, `memcpy` it to the end of
`result`, add `strlen(buf)` to `len`, then `i++`. -/
def socStep (s : StringOpsCState) : StringOpsCState :=
  ⟨s.i + 1, s.result ++ cToken s.i, s.len + (cToken s.i).length⟩

/-- `main` of `string_ops.c`: run the loop from `i = 0` on the empty buffer,
print `len` (a `size_t`, via `%zu`), return 0. -/
def string_ops_c_main (_ : Env) : ProcResult :=
  ⟨toString (loopIter socGuard socStep 10001 ⟨0, [], 0⟩).len ++ "\n", 0⟩

/-! ## `bench/string_ops/string_ops.cpp` -/

/-- The token of `string_ops.cpp`: `std::string s = "item-" + std::to_string(i);`
followed by `std::transform(s.begin(), s.end(), s.begin(), ::toupper);`. -/
def cppToken (i : Nat) : List Char :=
  (("item-".data ++ decDigits i)).map Char.toUpper

/-- Loop state of `string_ops.cpp`: `int i` and the `std::string result`. -/
structure StringOpsCppState where
  i : Nat
  result : List Char
deriving DecidableEq

/-- Guard of the `string_ops.cpp` loop: `i < 10000`. -/
def socppGuard (s : StringOpsCppState) : Bool := s.i < 10000

/-- Body of the `string_ops.cpp` loop: build the upper-cased token, append it
with `result += s`, then `i++`. -/
def socppStep (s : StringOpsCppState) : StringOpsCppState :=
  ⟨s.i + 1, s.result ++ cppToken s.i⟩

/-- `main` of `string_ops.cpp`: run the loop from `i = 0` on the empty string,
print `result.length()`, return 0. -/
def string_ops_cpp_main (_ : Env) : ProcResult :=
  ⟨toString (loopIter socppGuard socppStep 10001 ⟨0, []⟩).result.length ++ "\n", 0⟩

/-! ## `bench/data_transform/data_transform.c` and `.cpp` -/

/-- `typedef struct { int id; int value; int doubled; } Item;` -/
structure Item where
  id : Int
  value : Int
  doubled : Int
deriving DecidableEq

/-- Loop state of `data_transform.c`: `int i` and the contents of the
`malloc`ed array, a partial map from index to the `Item` written there. -/
structure DataTransformCState where
  i : Nat
  items : Nat → Option Item

/-- Guard of the `data_transform.c` loop: `i < 10000`. -/
def dtcGuard (s : DataTransformCState) : Bool := s.i < 10000

/-- Body of the `data_transform.c` loop:
`items[i].id = i; items[i].value = i; items[i].doubled = i * 2;` then `i++`. -/
def dtcStep (s : DataTransformCState) : DataTransformCState :=
  ⟨s.i + 1, fun j => if j = s.i then some ⟨s.i, s.i, s.i * 2⟩ else s.items j⟩

/-- `main` of `data_transform.c`: fill the array, then `printf("%d\n", 10000)`
(the printed value is the literal constant), return 0. -/
def data_transform_c_main (_ : Env) : ProcResult :=
  let _final := loopIter dtcGuard dtcStep 10001 ⟨0, fun _ => none⟩
  ⟨toString (10000 : Int) ++ "\n", 0⟩

/-- Loop state of `data_transform.cpp`: `int i` and the
`std::vector<Item> items`. -/
structure DataTransformCppState where
  i : Nat
  items : List Item
deriving DecidableEq

/-- Guard of the `data_transform.cpp` loop: `i < 10000`. -/
def dtcppGuard (s : DataTransformCppState) : Bool := s.i < 10000

/-- Body of the `data_transform.cpp` loop:
`items.push_back({i, i, i * 2});` then `i++`. -/
def dtcppStep (s : DataTransformCppState) : DataTransformCppState :=
  ⟨s.i + 1, s.items ++ [⟨s.i, s.i, s.i * 2⟩]⟩

/-- `main` of `data_transform.cpp`: run the loop from `i = 0` on the empty
vector, print `items.size()`, return 0. -/
def data_transform_cpp_main (_ : Env) : ProcResult :=
  ⟨toString (loopIter dtcppGuard dtcppStep 10001 ⟨0, []⟩).items.length ++ "\n", 0⟩

/-- All eight program entry points of the repository. -/
def allMains : List (Env → ProcResult) :=
  [fib_c_main, fib_cpp_main, sum_range_main, map_filter_main,
   string_ops_c_main, string_ops_cpp_main,
   data_transform_c_main, data_transform_cpp_main]

/-- A string that is one line holding one decimal (nonnegative) integer. -/
def isSingleIntLine (s : String) : Prop :=
  ∃ n : Nat, s = toString n ++ "\n"

/-- An arbitrary concrete environment, used to instantiate run theorems. -/
def emptyEnv : Env := ⟨[], [], ""⟩

/-! ## Generic facts about the loop executors -/

/-- A loop whose guard is already false does not move, whatever the fuel. -/
theorem loopIter_guard_false {σ : Type} (g : σ → Bool) (st : σ → σ)
    {s : σ} (h : g s = false) : ∀ f, loopIter g st f s = s := by
  intro f
  cases f with
  | zero => rfl
  | succ f => simp [loopIter, h]

/-- Splitting the fuel of the bounded executor. -/
theorem loopIter_add {σ : Type} (g : σ → Bool) (st : σ → σ) :
    ∀ (a b : Nat) (s : σ),
      loopIter g st (a + b) s = loopIter g st b (loopIter g st a s) := by
  intro a
  induction a with
  | zero => intro b s; rw [Nat.zero_add]; rfl
  | succ a ih =>
    intro b s
    cases hg : g s with
    | false =>
      rw [loopIter_guard_false g st hg, loopIter_guard_false g st hg,
        loopIter_guard_false g st hg]
    | true =>
      have : a + 1 + b = (a + b) + 1 := by omega
      rw [this]
      simp only [loopIter, hg, if_true]
      exact ih b (st s)

/-- If the guard fails within `f` iterations, the fuel interpreter with fuel
`f + 1` terminates, in the state the bounded executor computes. -/
theorem whileFuel_eq_some {σ : Type} (g : σ → Bool) (st : σ → σ) :
    ∀ (f : Nat) (s : σ), g (loopIter g st f s) = false →
      whileFuel g st (f + 1) s = some (loopIter g st f s) := by
  intro f
  induction f with
  | zero => intro s h; simp only [loopIter] at h ⊢; simp [whileFuel, h]
  | succ f ih =>
    intro s h
    cases hg : g s with
    | false =>
      rw [loopIter_guard_false g st hg] at h ⊢
      simp [whileFuel, hg]
    | true =>
      simp only [loopIter, hg, if_true] at h ⊢
      simp only [whileFuel, hg, if_true]
      exact ih (st s) h

/-! ## The Fibonacci function -/

/-- On natural-number arguments, the embedded `fib` agrees with the
mathematical Fibonacci sequence. -/
theorem fib_eq_natFib : ∀ k : Nat, fib (k : Int) = (Nat.fib k : Int) := by
  intro k
  induction k using Nat.strong_induction_on with
  | _ k ih =>
    rcases k with _ | _ | k
    · rw [fib]; norm_num
    · rw [fib]; norm_num
    · rw [fib, if_neg (by push_cast; omega)]
      have h1 : ((k + 2 : Nat) : Int) - 1 = ((k + 1 : Nat) : Int) := by
        push_cast; ring
      have h2 : ((k + 2 : Nat) : Int) - 2 = ((k : Nat) : Int) := by
        push_cast; ring
      rw [h1, h2, ih (k + 1) (by omega), ih k (by omega), Nat.fib_add_two]
      push_cast; ring

/-- The recursion of `fib` converges within explicit fuel: `n.toNat + 1`
levels of calls are enough, and the value is the one `fib` computes. -/
theorem fibFuel_converges :
    ∀ (k : Nat) (n : Int), n.toNat ≤ k → fibFuel (k + 1) n = some (fib n) := by
  intro k
  induction k with
  | zero =>
    intro n h
    have hn : n ≤ 1 := by omega
    rw [fib, if_pos hn]
    simp [fibFuel, hn]
  | succ k ih =>
    intro n h
    by_cases hn : n ≤ 1
    · rw [fib, if_pos hn]
      simp [fibFuel, hn]
    · have hr1 : (n - 1).toNat ≤ k := by omega
      have hr2 : (n - 2).toNat ≤ k := by omega
      rw [fib, if_neg hn]
      have e1 := ih (n - 1) hr1
      have e2 := ih (n - 2) hr2
      generalize hm : k + 1 = m at e1 e2 ⊢
      simp only [fibFuel, if_neg hn, e1, e2]

/-! ## Decimal digit counts -/

/-- One-digit numbers render in one character. -/
theorem dlen_of_lt_ten {n : Nat} (h : n < 10) : dlen n = 1 := by
  rw [dlen, decDigits, if_pos h]
  rfl

/-- For `n ≥ 10`, the rendering is one character longer than that of
`n / 10`. -/
theorem dlen_of_ten_le {n : Nat} (h : 10 ≤ n) : dlen n = dlen (n / 10) + 1 := by
  rw [dlen, decDigits, if_neg (by omega)]
  simp [dlen]

/-- Two-digit numbers render in two characters. -/
theorem dlen_two {n : Nat} (h1 : 10 ≤ n) (h2 : n < 100) : dlen n = 2 := by
  rw [dlen_of_ten_le h1, dlen_of_lt_ten (by omega)]

/-- Three-digit numbers render in three characters. -/
theorem dlen_three {n : Nat} (h1 : 100 ≤ n) (h2 : n < 1000) : dlen n = 3 := by
  rw [dlen_of_ten_le (by omega), dlen_two (by omega) (by omega)]

/-- Four-digit numbers render in four characters. -/
theorem dlen_four {n : Nat} (h1 : 1000 ≤ n) (h2 : n < 10000) : dlen n = 4 := by
  rw [dlen_of_ten_le (by omega), dlen_three (by omega) (by omega)]

/-- Every index the `string_ops` loops format has at most four digits. -/
theorem dlen_le_four {n : Nat} (h : n < 10000) : dlen n ≤ 4 := by
  by_cases h1 : n < 10
  · rw [dlen_of_lt_ten h1]; omega
  · by_cases h2 : n < 100
    · rw [dlen_two (by omega) h2]; omega
    · by_cases h3 : n < 1000
      · rw [dlen_three (by omega) h3]; omega
      · rw [dlen_four (by omega) h]

/-- Total number of digit characters over the 10000 formatted indices. -/
theorem dlen_sum : ∑ i in Finset.range 10000, dlen i = 38890 := by
  have split : ∀ a b c : Nat, a ≤ b → b ≤ c →
      ∑ i in Finset.Ico a c, dlen i
        = ∑ i in Finset.Ico a b, dlen i + ∑ i in Finset.Ico b c, dlen i := by
    intro a b c hab hbc
    rw [Finset.sum_Ico_consecutive _ hab hbc]
  have const : ∀ (a b d : Nat), (∀ i, a ≤ i → i < b → dlen i = d) →
      ∑ i in Finset.Ico a b, dlen i = (b - a) * d := by
    intro a b d hd
    calc ∑ i in Finset.Ico a b, dlen i
        = ∑ _i in Finset.Ico a b, d := by
          refine Finset.sum_congr rfl ?_
          intro i hi
          rw [Finset.mem_Ico] at hi
          exact hd i hi.1 hi.2
      _ = (b - a) * d := by rw [Finset.sum_const, Nat.card_Ico, smul_eq_mul]
  rw [Finset.range_eq_Ico, split 0 10 10000 (by omega) (by omega),
    split 10 100 10000 (by omega) (by omega),
    split 100 1000 10000 (by omega) (by omega),
    const 0 10 1 (fun i _ h2 => dlen_of_lt_ten h2),
    const 10 100 2 (fun i h1 h2 => dlen_two h1 h2),
    const 100 1000 3 (fun i h1 h2 => dlen_three h1 h2),
    const 1000 10000 4 (fun i h1 h2 => dlen_four h1 h2)]

/-- Length of the token `sprintf(buf, "ITEM-%d", i)` writes: five letters of
the prefix plus the digits of `i`. -/
theorem cToken_length (i : Nat) : (cToken i).length = 5 + dlen i := by
  simp only [cToken, List.length_append, dlen]
  congr 1

/-- Length of the upper-cased token of `string_ops.cpp`: the same five-plus-
digits count (upper-casing maps characters one-to-one). -/
theorem cppToken_length (i : Nat) : (cppToken i).length = 5 + dlen i := by
  simp only [cppToken, List.length_map, List.length_append, dlen]
  congr 1

/-- Total length of the 10000 concatenated tokens. -/
theorem token_length_sum :
    ∑ i in Finset.range 10000, (5 + dlen i) = 88890 := by
  have split : ∀ a b c : Nat, a ≤ b → b ≤ c →
      ∑ i in Finset.Ico a c, (5 + dlen i)
        = ∑ i in Finset.Ico a b, (5 + dlen i)
          + ∑ i in Finset.Ico b c, (5 + dlen i) := by
    intro a b c hab hbc
    rw [Finset.sum_Ico_consecutive _ hab hbc]
  have const : ∀ (a b d : Nat), (∀ i, a ≤ i → i < b → dlen i = d) →
      ∑ i in Finset.Ico a b, (5 + dlen i) = (b - a) * (5 + d) := by
    intro a b d hd
    calc ∑ i in Finset.Ico a b, (5 + dlen i)
        = ∑ _i in Finset.Ico a b, (5 + d) := by
          refine Finset.sum_congr rfl ?_
          intro i hi
          rw [Finset.mem_Ico] at hi
          rw [hd i hi.1 hi.2]
      _ = (b - a) * (5 + d) := by
          rw [Finset.sum_const, Nat.card_Ico, smul_eq_mul]
  rw [Finset.range_eq_Ico, split 0 10 10000 (by omega) (by omega),
    split 10 100 10000 (by omega) (by omega),
    split 100 1000 10000 (by omega) (by omega),
    const 0 10 1 (fun i _ h2 => dlen_of_lt_ten h2),
    const 10 100 2 (fun i h1 h2 => dlen_two h1 h2),
    const 100 1000 3 (fun i h1 h2 => dlen_three h1 h2),
    const 1000 10000 4 (fun i h1 h2 => dlen_four h1 h2)]

/-! ## Arithmetic closed forms -/

/-- Gauss: twice the sum of `0, 1, ..., n-1`. -/
theorem gauss_sum (n : Nat) :
    2 * ∑ j in Finset.range n, (j : Int) = n * (n - 1) := by
  induction n with
  | zero => simp
  | succ n ih =>
    rw [Finset.sum_range_succ, mul_add, ih]
    push_cast
    ring

/-- Three times the sum of the squares of the first `n` odd numbers. -/
theorem odd_sq_sum (n : Nat) :
    3 * ∑ j in Finset.range n, (2 * (j : Int) + 1) ^ 2
      = (n : Int) * (2 * (n : Int) - 1) * (2 * (n : Int) + 1) := by
  induction n with
  | zero => simp
  | succ n ih =>
    rw [Finset.sum_range_succ, mul_add, ih]
    push_cast
    ring

/-- Concrete value of the `sum_range` total. -/
theorem sr_sum_value :
    ∑ j in Finset.range 1000000, (j : Int) = 499999500000 := by
  have hg := gauss_sum 1000000
  generalize hX : (∑ j in Finset.range 1000000, (j : Int)) = X at hg
  push_cast at hg
  omega

/-- Concrete value of the `map_filter` total. -/
theorem mf_sum_value :
    ∑ j in Finset.range 10000, (2 * (j : Int) + 1) ^ 2 = 1333333330000 := by
  have hg := odd_sq_sum 10000
  generalize hX : (∑ j in Finset.range 10000, (2 * (j : Int) + 1) ^ 2) = X at hg
  push_cast at hg
  omega

/-! ## Closed forms for the loops -/

/-- The `sum_range.cpp` loop, run from counter `i` with `r` iterations left,
stops with `i = 1000000` and adds `i + (i+1) + ... + (i+r-1)` to the
accumulator. -/
theorem srLoop_spec : ∀ (r : Nat) (i sum : Int), i + r = 1000000 →
    loopIter srGuard srStep r ⟨i, sum⟩
      = ⟨1000000, sum + r * i + ∑ j in Finset.range r, (j : Int)⟩ := by
  intro r
  induction r with
  | zero =>
    intro i sum h
    simp only [loopIter]
    rw [show i = 1000000 by omega]
    norm_num
  | succ r ih =>
    intro i sum h
    have hg : srGuard ⟨i, sum⟩ = true := by
      simp only [srGuard, decide_eq_true_eq]
      omega
    simp only [loopIter, hg, if_true]
    have hstep : srStep ⟨i, sum⟩ = ⟨i + 1, sum + i⟩ := rfl
    rw [hstep, ih (i + 1) (sum + i) (by omega), Finset.sum_range_succ]
    congr 1
    push_cast
    ring

/-- State of the `sum_range.cpp` loop after its 1000000 iterations. -/
theorem srLoop_exact :
    loopIter srGuard srStep 1000000 ⟨0, 0⟩ = ⟨1000000, 499999500000⟩ := by
  rw [srLoop_spec 1000000 0 0 (by omega), sr_sum_value]
  norm_num

/-- Final state of the `sum_range.cpp` loop as `main` runs it. -/
theorem srLoop_final :
    loopIter srGuard srStep 1000001 ⟨0, 0⟩ = ⟨1000000, 499999500000⟩ := by
  rw [show (1000001 : Nat) = 1000000 + 1 from rfl, loopIter_add, srLoop_exact,
    loopIter_guard_false _ _ (by simp [srGuard])]

/-- The `map_filter.c` loop obeys this invariant shape: entering an iteration
at the even counter `i = 2c` with `count = c` and `n = 10000 - c` odd numbers
still to be taken, it consumes the remaining numbers pairwise (skip the even,
take the odd), adds the squares of the remaining odd numbers to `sum`, and
stops at `i = 20000`, `count = 10000`. -/
theorem mfLoop_spec : ∀ (n c : Nat) (sum : Int), c + n = 10000 →
    loopIter mfGuard mfStep (2 * n) ⟨2 * (c : Int), sum, (c : Int)⟩
      = ⟨20000, sum + ∑ j in Finset.range n, (2 * ((c : Int) + j) + 1) ^ 2,
          10000⟩ := by
  intro n
  induction n with
  | zero =>
    intro c sum h
    have hc : c = 10000 := by omega
    subst hc
    norm_num [loopIter]
  | succ n ih =>
    intro c sum h
    have hg1 : mfGuard ⟨2 * (c : Int), sum, (c : Int)⟩ = true := by
      simp only [mfGuard, Bool.and_eq_true, decide_eq_true_eq]
      omega
    have hs1 : mfStep ⟨2 * (c : Int), sum, (c : Int)⟩
        = ⟨2 * (c : Int) + 1, sum, (c : Int)⟩ := by
      simp only [mfStep]
      rw [if_neg (by omega)]
    have hg2 : mfGuard ⟨2 * (c : Int) + 1, sum, (c : Int)⟩ = true := by
      simp only [mfGuard, Bool.and_eq_true, decide_eq_true_eq]
      omega
    have hs2 : mfStep ⟨2 * (c : Int) + 1, sum, (c : Int)⟩
        = ⟨2 * ((c : Int) + 1),
            sum + (2 * (c : Int) + 1) * (2 * (c : Int) + 1),
            (c : Int) + 1⟩ := by
      simp only [mfStep]
      rw [if_pos (by omega)]
      congr 1
    rw [show 2 * (n + 1) = 2 * n + 1 + 1 by ring]
    simp only [loopIter, hg1, hs1, hg2, hs2, if_true]
    rw [show ((c : Int) + 1) = ((c + 1 : Nat) : Int) by push_cast; ring,
      ih (c + 1) _ (by omega)]
    simp only [MapFilterState.mk.injEq, true_and, and_true]
    rw [Finset.sum_range_succ']
    rw [Finset.sum_congr rfl (fun j _ =>
      show (2 * ((c : Int) + (j + 1 : Nat)) + 1) ^ 2
          = (2 * (((c + 1 : Nat) : Int) + j) + 1) ^ 2 by push_cast; ring)]
    push_cast
    ring

/-- Final state of the `map_filter.c` loop as `main` runs it: the loop leaves
at `i = 20000` with `count = 10000` and the sum of the squares of the first
10000 odd numbers. -/
theorem mfLoop_exact :
    loopIter mfGuard mfStep 20000 ⟨0, 0, 0⟩ = ⟨20000, 1333333330000, 10000⟩ := by
  have h0 := mfLoop_spec 10000 0 0 (by omega)
  simp only [Nat.cast_zero, mul_zero, zero_add,
    show (2 : Nat) * 10000 = 20000 from rfl] at h0
  rw [mf_sum_value] at h0
  exact h0

/-- Final state of the `map_filter.c` loop as `main` runs it (the guard is
still evaluated with the spare fuel, but `count` has reached 10000). -/
theorem mfLoop_final :
    loopIter mfGuard mfStep 100001 ⟨0, 0, 0⟩ = ⟨20000, 1333333330000, 10000⟩ := by
  rw [show (100001 : Nat) = 20000 + 80001 from rfl, loopIter_add, mfLoop_exact,
    loopIter_guard_false _ _ (by simp [mfGuard])]

/-- The tokens `string_ops.c` appends, starting at index `i`, for `r` more
iterations. -/
def tokensFrom : Nat → Nat → List Char
  | _, 0 => []
  | i, r+1 => cToken i ++ tokensFrom (i+1) r

/-- The tokens `string_ops.cpp` appends, starting at index `i`, for `r` more
iterations. -/
def cppTokensFrom : Nat → Nat → List Char
  | _, 0 => []
  | i, r+1 => cppToken i ++ cppTokensFrom (i+1) r

/-- The `string_ops.c` loop, entered at index `i` with `r` iterations left,
stops at `i = 10000`, appends the remaining tokens, and adds their lengths
to `len`. -/
theorem socLoop_spec : ∀ (r i : Nat) (res : List Char) (len : Nat),
    i + r = 10000 →
    loopIter socGuard socStep r ⟨i, res, len⟩
      = ⟨10000, res ++ tokensFrom i r,
          len + ∑ j in Finset.range r, (5 + dlen (i + j))⟩ := by
  intro r
  induction r with
  | zero =>
    intro i res len h
    simp only [loopIter, tokensFrom]
    rw [show i = 10000 by omega]
    simp
  | succ r ih =>
    intro i res len h
    have hg : socGuard ⟨i, res, len⟩ = true := by
      simp only [socGuard, decide_eq_true_eq]
      omega
    simp only [loopIter, hg, if_true]
    have hstep : socStep ⟨i, res, len⟩
        = ⟨i + 1, res ++ cToken i, len + (cToken i).length⟩ := rfl
    rw [hstep, cToken_length, ih (i + 1) _ _ (by omega)]
    simp only [StringOpsCState.mk.injEq, true_and]
    constructor
    · rw [tokensFrom, List.append_assoc]
    · rw [Finset.sum_range_succ',
        Finset.sum_congr rfl (fun j _ =>
          show 5 + dlen (i + (j + 1)) = 5 + dlen (i + 1 + j) by
            rw [show i + (j + 1) = i + 1 + j by omega]),
        show i + 0 = i by omega]
      ring

/-- The `string_ops.cpp` loop, entered at index `i` with `r` iterations left,
stops at `i = 10000` and appends the remaining upper-cased tokens. -/
theorem socppLoop_spec : ∀ (r i : Nat) (res : List Char), i + r = 10000 →
    loopIter socppGuard socppStep r ⟨i, res⟩
      = ⟨10000, res ++ cppTokensFrom i r⟩ := by
  intro r
  induction r with
  | zero =>
    intro i res h
    simp only [loopIter, cppTokensFrom]
    rw [show i = 10000 by omega]
    simp
  | succ r ih =>
    intro i res h
    have hg : socppGuard ⟨i, res⟩ = true := by
      simp only [socppGuard, decide_eq_true_eq]
      omega
    simp only [loopIter, hg, if_true]
    have hstep : socppStep ⟨i, res⟩ = ⟨i + 1, res ++ cppToken i⟩ := rfl
    rw [hstep, ih (i + 1) _ (by omega)]
    simp only [StringOpsCppState.mk.injEq, true_and]
    rw [cppTokensFrom, List.append_assoc]

/-- Length of the token block of `string_ops.cpp`. -/
theorem cppTokensFrom_length : ∀ (r i : Nat),
    (cppTokensFrom i r).length = ∑ j in Finset.range r, (5 + dlen (i + j)) := by
  intro r
  induction r with
  | zero => intro i; simp [cppTokensFrom]
  | succ r ih =>
    intro i
    rw [cppTokensFrom, List.length_append, cppToken_length, ih (i + 1),
      Finset.sum_range_succ',
      Finset.sum_congr rfl (fun j _ =>
        show 5 + dlen (i + (j + 1)) = 5 + dlen (i + 1 + j) by
          rw [show i + (j + 1) = i + 1 + j by omega]),
      show i + 0 = i by omega]
    ring

/-- Final state of the `string_ops.c` loop as `main` runs it. -/
theorem socLoop_exact :
    loopIter socGuard socStep 10000 ⟨0, [], 0⟩
      = ⟨10000, tokensFrom 0 10000, 88890⟩ := by
  have h0 := socLoop_spec 10000 0 [] 0 (by omega)
  rw [List.nil_append, Nat.zero_add,
    Finset.sum_congr rfl (fun j _ =>
      show 5 + dlen (0 + j) = 5 + dlen j by rw [Nat.zero_add]),
    token_length_sum] at h0
  exact h0

/-- Final state of the `string_ops.c` loop as `main` runs it. -/
theorem socLoop_final :
    loopIter socGuard socStep 10001 ⟨0, [], 0⟩
      = ⟨10000, tokensFrom 0 10000, 88890⟩ := by
  rw [show (10001 : Nat) = 10000 + 1 from rfl, loopIter_add, socLoop_exact,
    loopIter_guard_false _ _ (by simp [socGuard])]

/-- Final state of the `string_ops.cpp` loop as `main` runs it. -/
theorem socppLoop_exact :
    loopIter socppGuard socppStep 10000 ⟨0, []⟩
      = ⟨10000, cppTokensFrom 0 10000⟩ := by
  have h0 := socppLoop_spec 10000 0 [] (by omega)
  rw [List.nil_append] at h0
  exact h0

/-- Final state of the `string_ops.cpp` loop as `main` runs it. -/
theorem socppLoop_final :
    loopIter socppGuard socppStep 10001 ⟨0, []⟩
      = ⟨10000, cppTokensFrom 0 10000⟩ := by
  rw [show (10001 : Nat) = 10000 + 1 from rfl, loopIter_add, socppLoop_exact,
    loopIter_guard_false _ _ (by simp [socppGuard])]

/-- The final `std::string` of `string_ops.cpp` has length 88890. -/
theorem cppTokens_total_length : (cppTokensFrom 0 10000).length = 88890 := by
  rw [cppTokensFrom_length 10000 0]
  rw [Finset.sum_congr rfl (fun j _ =>
    show 5 + dlen (0 + j) = 5 + dlen j by rw [Nat.zero_add])]
  exact token_length_sum

/-- The items `data_transform.cpp` pushes, starting at `i`, for `r` more
iterations. -/
def dtItemsFrom : Nat → Nat → List Item
  | _, 0 => []
  | i, r+1 => ⟨(i : Int), (i : Int), (i : Int) * 2⟩ :: dtItemsFrom (i+1) r

/-- The `data_transform.cpp` loop, entered at `i` with `r` iterations left,
stops at `i = 10000` after pushing the remaining items. -/
theorem dtcppLoop_spec : ∀ (r i : Nat) (items : List Item), i + r = 10000 →
    loopIter dtcppGuard dtcppStep r ⟨i, items⟩
      = ⟨10000, items ++ dtItemsFrom i r⟩ := by
  intro r
  induction r with
  | zero =>
    intro i items h
    simp only [loopIter, dtItemsFrom]
    rw [show i = 10000 by omega]
    simp
  | succ r ih =>
    intro i items h
    have hg : dtcppGuard ⟨i, items⟩ = true := by
      simp only [dtcppGuard, decide_eq_true_eq]
      omega
    simp only [loopIter, hg, if_true]
    have hstep : dtcppStep ⟨i, items⟩
        = ⟨i + 1, items ++ [⟨(i : Int), (i : Int), (i : Int) * 2⟩]⟩ := rfl
    rw [hstep, ih (i + 1) _ (by omega)]
    simp only [DataTransformCppState.mk.injEq, true_and]
    rw [dtItemsFrom, List.append_assoc, List.singleton_append]

/-- There are `r` items in the block starting at `i`. -/
theorem dtItemsFrom_length : ∀ (r i : Nat), (dtItemsFrom i r).length = r := by
  intro r
  induction r with
  | zero => intro i; rfl
  | succ r ih =>
    intro i
    rw [dtItemsFrom, List.length_cons, ih (i + 1)]

/-- Final state of the `data_transform.cpp` loop as `main` runs it. -/
theorem dtcppLoop_exact :
    loopIter dtcppGuard dtcppStep 10000 ⟨0, []⟩
      = ⟨10000, dtItemsFrom 0 10000⟩ := by
  have h0 := dtcppLoop_spec 10000 0 [] (by omega)
  rw [List.nil_append] at h0
  exact h0

/-- Final state of the `data_transform.cpp` loop as `main` runs it. -/
theorem dtcppLoop_final :
    loopIter dtcppGuard dtcppStep 10001 ⟨0, []⟩
      = ⟨10000, dtItemsFrom 0 10000⟩ := by
  rw [show (10001 : Nat) = 10000 + 1 from rfl, loopIter_add, dtcppLoop_exact,
    loopIter_guard_false _ _ (by simp [dtcppGuard])]

/-- The `data_transform.c` loop, entered at `i` with `r` iterations left,
leaves its counter at 10000. -/
theorem dtcLoop_spec : ∀ (r i : Nat) (arr : Nat → Option Item),
    i + r = 10000 → (loopIter dtcGuard dtcStep r ⟨i, arr⟩).i = 10000 := by
  intro r
  induction r with
  | zero =>
    intro i arr h
    simp only [loopIter]
    omega
  | succ r ih =>
    intro i arr h
    have hg : dtcGuard ⟨i, arr⟩ = true := by
      simp only [dtcGuard, decide_eq_true_eq]
      omega
    simp only [loopIter, hg, if_true]
    exact ih (i + 1) _ (by omega)

/-! ## Values of the embedded programs -/

/-- `fib(30) = 832040`. -/
theorem fib_30 : fib 30 = 832040 := by
  have h := fib_eq_natFib 30
  rw [show ((30 : Nat) : Int) = (30 : Int) by norm_num,
    show Nat.fib 30 = 832040 from by decide] at h
  rw [h]
  norm_num

/-- `fib(38) = 39088169`. -/
theorem fib_38 : fib 38 = 39088169 := by
  have h := fib_eq_natFib 38
  rw [show ((38 : Nat) : Int) = (38 : Int) by norm_num,
    show Nat.fib 38 = 39088169 from by decide] at h
  rw [h]
  norm_num

/-- Run of `fib.c`: it prints `832040` and exits with 0. -/
theorem fib_c_main_eq (e : Env) : fib_c_main e = ⟨"832040\n", 0⟩ := by
  simp only [fib_c_main, fib_30]
  rfl

/-- Run of `fib.cpp`: it prints `832040` and exits with 0. -/
theorem fib_cpp_main_eq (e : Env) : fib_cpp_main e = ⟨"832040\n", 0⟩ := by
  simp only [fib_cpp_main, fib_30]
  rfl

/-- Run of `sum_range.cpp`: it prints `499999500000` and exits with 0. -/
theorem sum_range_main_eq (e : Env) :
    sum_range_main e = ⟨"499999500000\n", 0⟩ := by
  simp only [sum_range_main, srLoop_final]
  rfl

/-- Run of `map_filter.c`: it prints `1333333330000` and exits with 0. -/
theorem map_filter_main_eq (e : Env) :
    map_filter_main e = ⟨"1333333330000\n", 0⟩ := by
  simp only [map_filter_main, mfLoop_final]
  rfl

/-- Run of `string_ops.c`: it prints `88890` and exits with 0. -/
theorem string_ops_c_main_eq (e : Env) :
    string_ops_c_main e = ⟨"88890\n", 0⟩ := by
  simp only [string_ops_c_main, socLoop_final]
  rfl

/-- Run of `string_ops.cpp`: it prints `88890` and exits with 0. -/
theorem string_ops_cpp_main_eq (e : Env) :
    string_ops_cpp_main e = ⟨"88890\n", 0⟩ := by
  simp only [string_ops_cpp_main, socppLoop_final]
  rw [cppTokens_total_length]
  rfl

/-- Run of `data_transform.c`: it prints `10000` and exits with 0. -/
theorem data_transform_c_main_eq (e : Env) :
    data_transform_c_main e = ⟨"10000\n", 0⟩ := rfl

/-- Run of `data_transform.cpp`: it prints `10000` and exits with 0. -/
theorem data_transform_cpp_main_eq (e : Env) :
    data_transform_cpp_main e = ⟨"10000\n", 0⟩ := by
  simp only [data_transform_cpp_main, dtcppLoop_final]
  rw [dtItemsFrom_length 10000 0]
  rfl

/-- Length of the token block of `string_ops.c`. -/
theorem tokensFrom_length : ∀ (r i : Nat),
    (tokensFrom i r).length = ∑ j in Finset.range r, (5 + dlen (i + j)) := by
  intro r
  induction r with
  | zero => intro i; simp [tokensFrom]
  | succ r ih =>
    intro i
    rw [tokensFrom, List.length_append, cToken_length, ih (i + 1),
      Finset.sum_range_succ',
      Finset.sum_congr rfl (fun j _ =>
        show 5 + dlen (i + (j + 1)) = 5 + dlen (i + 1 + j) by
          rw [show i + (j + 1) = i + 1 + j by omega]),
      show i + 0 = i by omega]
    ring

/-- The concatenation built by `string_ops.c` has length 88890. -/
theorem tokens_total_length : (tokensFrom 0 10000).length = 88890 := by
  rw [tokensFrom_length 10000 0,
    Finset.sum_congr rfl (fun j _ =>
      show 5 + dlen (0 + j) = 5 + dlen j by rw [Nat.zero_add])]
  exact token_length_sum

/-- Any prefix of the `string_ops.c` loop: entered at index `i` with `k`
iterations of budget and `i + k ≤ 10000`, the loop performs exactly `k` more
iterations. -/
theorem socLoop_upto : ∀ (k i : Nat) (res : List Char) (len : Nat),
    i + k ≤ 10000 →
    loopIter socGuard socStep k ⟨i, res, len⟩
      = ⟨i + k, res ++ tokensFrom i k,
          len + ∑ j in Finset.range k, (5 + dlen (i + j))⟩ := by
  intro k
  induction k with
  | zero =>
    intro i res len _
    simp only [loopIter, tokensFrom]
    simp
  | succ k ih =>
    intro i res len h
    have hg : socGuard ⟨i, res, len⟩ = true := by
      simp only [socGuard, decide_eq_true_eq]
      omega
    simp only [loopIter, hg, if_true]
    have hstep : socStep ⟨i, res, len⟩
        = ⟨i + 1, res ++ cToken i, len + (cToken i).length⟩ := rfl
    rw [hstep, cToken_length, ih (i + 1) _ _ (by omega)]
    simp only [StringOpsCState.mk.injEq]
    refine ⟨by omega, by rw [tokensFrom, List.append_assoc], ?_⟩
    rw [Finset.sum_range_succ',
      Finset.sum_congr rfl (fun j _ =>
        show 5 + dlen (i + (j + 1)) = 5 + dlen (i + 1 + j) by
          rw [show i + (j + 1) = i + 1 + j by omega]),
      show i + 0 = i by omega]
    ring

/-- Counter of the `data_transform.c` loop after its 10000 iterations. -/
theorem dtcLoop_exact_i :
    (loopIter dtcGuard dtcStep 10000 ⟨0, fun _ => none⟩).i = 10000 :=
  dtcLoop_spec 10000 0 _ (by omega)

/-! ## The claims -/

/-- C1: the recursive `fib` (defined as `n` for `n ≤ 1` and
`fib (n-1) + fib (n-2)` otherwise) applied to 30 equals 832040, and both the
C and the C++ Fibonacci programs print exactly that value (with a newline)
on every run. -/
theorem claim_C1 : fib 30 = 832040
    ∧ (∀ e : Env, (fib_c_main e).stdout = "832040\n"
        ∧ (fib_cpp_main e).stdout = "832040\n") :=
  ⟨fib_30, fun e => ⟨by rw [fib_c_main_eq e], by rw [fib_cpp_main_eq e]⟩⟩

/-- C2, counterexample: the `map_filter.c` program does not print
`1333283335000`, and the sum of the squares of the first 10000 odd numbers
is not `1333283335000` either. -/
theorem claim_C2_counterexample :
    (map_filter_main emptyEnv).stdout ≠ "1333283335000\n"
    ∧ ∑ j in Finset.range 10000, (2 * (j : Int) + 1) ^ 2 ≠ 1333283335000 := by
  constructor
  · rw [map_filter_main_eq]
    decide
  · rw [mf_sum_value]
    decide

/-- C2, amended: the filter-map-reduce program prints exactly
`1333333330000`, the sum of the squares of the first 10000 odd numbers in
`[0, 100000)`. -/
theorem claim_C2 :
    (∀ e : Env, (map_filter_main e).stdout = "1333333330000\n")
    ∧ ∑ j in Finset.range 10000, (2 * (j : Int) + 1) ^ 2 = 1333333330000 :=
  ⟨fun e => by rw [map_filter_main_eq e], mf_sum_value⟩

/-- C3, counterexample: the concatenation of the 10000 tokens does not have
length 86894, and neither string-concatenation program prints `86894`. -/
theorem claim_C3_counterexample :
    (tokensFrom 0 10000).length ≠ 86894
    ∧ (string_ops_c_main emptyEnv).stdout ≠ "86894\n"
    ∧ (string_ops_cpp_main emptyEnv).stdout ≠ "86894\n" := by
  refine ⟨by rw [tokens_total_length]; decide, ?_, ?_⟩
  · rw [string_ops_c_main_eq]
    decide
  · rw [string_ops_cpp_main_eq]
    decide

/-- C3, amended: the total length of the concatenation of the 10000 tokens
`"ITEM-0"` through `"ITEM-9999"` equals 88890, and that is the integer both
`string_ops.c` and `string_ops.cpp` print. -/
theorem claim_C3 : (tokensFrom 0 10000).length = 88890
    ∧ (∀ e : Env, (string_ops_c_main e).stdout = "88890\n"
        ∧ (string_ops_cpp_main e).stdout = "88890\n") :=
  ⟨tokens_total_length,
    fun e => ⟨by rw [string_ops_c_main_eq e],
      by rw [string_ops_cpp_main_eq e]⟩⟩

/-- C4: the range-summation program accumulates exactly the sum of the
integers `0, ..., 999999` and prints `499999500000`. -/
theorem claim_C4 :
    (loopIter srGuard srStep 1000001 ⟨0, 0⟩).sum
        = ∑ j in Finset.range 1000000, (j : Int)
    ∧ (∀ e : Env, (sum_range_main e).stdout = "499999500000\n") := by
  constructor
  · rw [srLoop_final, sr_sum_value]
  · intro e
    rw [sum_range_main_eq e]

/-- C5, counterexample: no program of the repository prints `39088169`. -/
theorem claim_C5_counterexample :
    ¬ ∃ m ∈ allMains, (m emptyEnv).stdout = "39088169\n" := by
  rintro ⟨m, hm, hout⟩
  simp only [allMains, List.mem_cons, List.not_mem_nil, or_false] at hm
  rcases hm with h | h | h | h | h | h | h | h <;> subst h
  · rw [fib_c_main_eq] at hout
    exact absurd hout (by decide)
  · rw [fib_cpp_main_eq] at hout
    exact absurd hout (by decide)
  · rw [sum_range_main_eq] at hout
    exact absurd hout (by decide)
  · rw [map_filter_main_eq] at hout
    exact absurd hout (by decide)
  · rw [string_ops_c_main_eq] at hout
    exact absurd hout (by decide)
  · rw [string_ops_cpp_main_eq] at hout
    exact absurd hout (by decide)
  · rw [data_transform_c_main_eq] at hout
    exact absurd hout (by decide)
  · rw [data_transform_cpp_main_eq] at hout
    exact absurd hout (by decide)

/-- C5, amended: the recursive `fib` applied to 38 does equal 39088169, but
no program of the repository prints that value: the two Fibonacci programs
call `fib(30)` and print `832040`. -/
theorem claim_C5 : fib 38 = 39088169
    ∧ (∀ e : Env, (fib_c_main e).stdout = "832040\n"
        ∧ (fib_cpp_main e).stdout = "832040\n")
    ∧ ∀ m ∈ allMains, ∀ e : Env, (m e).stdout ≠ "39088169\n" := by
  refine ⟨fib_38,
    fun e => ⟨by rw [fib_c_main_eq e], by rw [fib_cpp_main_eq e]⟩, ?_⟩
  intro m hm e
  simp only [allMains, List.mem_cons, List.not_mem_nil, or_false] at hm
  rcases hm with h | h | h | h | h | h | h | h <;> subst h
  · rw [fib_c_main_eq e]
    decide
  · rw [fib_cpp_main_eq e]
    decide
  · rw [sum_range_main_eq e]
    decide
  · rw [map_filter_main_eq e]
    decide
  · rw [string_ops_c_main_eq e]
    decide
  · rw [string_ops_cpp_main_eq e]
    decide
  · rw [data_transform_c_main_eq e]
    decide
  · rw [data_transform_cpp_main_eq e]
    decide

/-- Witness for C5: a concrete program of the list, with its membership
discharged, does not print `39088169`. -/
theorem claim_C5_witness :
    (fib_c_main emptyEnv).stdout ≠ "39088169\n" :=
  claim_C5.2.2 fib_c_main (by simp [allMains]) emptyEnv

/-- C6: for every one of the eight programs, the whole standard output is a
single line holding one decimal integer followed by a newline, and the exit
code is 0. -/
theorem claim_C6 : ∀ m ∈ allMains, ∀ e : Env,
    isSingleIntLine (m e).stdout ∧ (m e).exitCode = 0 := by
  intro m hm e
  simp only [allMains, List.mem_cons, List.not_mem_nil, or_false] at hm
  rcases hm with h | h | h | h | h | h | h | h <;> subst h
  · rw [fib_c_main_eq e]
    exact ⟨⟨832040, by decide⟩, rfl⟩
  · rw [fib_cpp_main_eq e]
    exact ⟨⟨832040, by decide⟩, rfl⟩
  · rw [sum_range_main_eq e]
    exact ⟨⟨499999500000, by decide⟩, rfl⟩
  · rw [map_filter_main_eq e]
    exact ⟨⟨1333333330000, by decide⟩, rfl⟩
  · rw [string_ops_c_main_eq e]
    exact ⟨⟨88890, by decide⟩, rfl⟩
  · rw [string_ops_cpp_main_eq e]
    exact ⟨⟨88890, by decide⟩, rfl⟩
  · rw [data_transform_c_main_eq e]
    exact ⟨⟨10000, by decide⟩, rfl⟩
  · rw [data_transform_cpp_main_eq e]
    exact ⟨⟨10000, by decide⟩, rfl⟩

/-- Witness for C6: the Fibonacci program, membership discharged, run on the
concrete empty environment. -/
theorem claim_C6_witness :
    isSingleIntLine (fib_c_main emptyEnv).stdout
    ∧ (fib_c_main emptyEnv).exitCode = 0 :=
  claim_C6 fib_c_main (by simp [allMains]) emptyEnv

/-- C7: every program ignores its environment (arguments, environment
variables, standard input), so any two runs give the same output and exit
code. -/
theorem claim_C7 : ∀ m ∈ allMains, ∀ e₁ e₂ : Env, m e₁ = m e₂ := by
  intro m hm e₁ e₂
  simp only [allMains, List.mem_cons, List.not_mem_nil, or_false] at hm
  rcases hm with h | h | h | h | h | h | h | h <;> subst h <;> rfl

/-- Witness for C7: a concrete program on two concrete, different
environments. -/
theorem claim_C7_witness :
    fib_c_main ⟨["--flag"], [("HOME", "/")], "stdin text"⟩
      = fib_c_main emptyEnv :=
  claim_C7 fib_c_main (by simp [allMains]) _ _

/-- C8: every program terminates.  The recursion of `fib` converges (with
fuel) on every nonnegative argument to the value `fib` computes, and each of
the six loops, run by the fuel interpreter with its `main`'s iteration
budget, stops with the guard false, in exactly the state the bounded
executor computes. -/
theorem claim_C8 :
    (∀ n : Int, 0 ≤ n → ∃ f, fibFuel f n = some (fib n))
    ∧ whileFuel srGuard srStep 1000001 ⟨0, 0⟩
        = some (loopIter srGuard srStep 1000001 ⟨0, 0⟩)
    ∧ whileFuel mfGuard mfStep 100001 ⟨0, 0, 0⟩
        = some (loopIter mfGuard mfStep 100001 ⟨0, 0, 0⟩)
    ∧ whileFuel socGuard socStep 10001 ⟨0, [], 0⟩
        = some (loopIter socGuard socStep 10001 ⟨0, [], 0⟩)
    ∧ whileFuel socppGuard socppStep 10001 ⟨0, []⟩
        = some (loopIter socppGuard socppStep 10001 ⟨0, []⟩)
    ∧ whileFuel dtcGuard dtcStep 10001 ⟨0, fun _ => none⟩
        = some (loopIter dtcGuard dtcStep 10001 ⟨0, fun _ => none⟩)
    ∧ whileFuel dtcppGuard dtcppStep 10001 ⟨0, []⟩
        = some (loopIter dtcppGuard dtcppStep 10001 ⟨0, []⟩) := by
  refine ⟨fun n hn => ⟨n.toNat + 1, fibFuel_converges n.toNat n (by omega)⟩,
    ?_, ?_, ?_, ?_, ?_, ?_⟩
  · rw [srLoop_final, show (1000001 : Nat) = 1000000 + 1 from rfl,
      whileFuel_eq_some _ _ 1000000 _ (by rw [srLoop_exact]; simp [srGuard]),
      srLoop_exact]
  · have h100000 : loopIter mfGuard mfStep 100000 ⟨0, 0, 0⟩
        = ⟨20000, 1333333330000, 10000⟩ := by
      rw [show (100000 : Nat) = 20000 + 80000 from rfl, loopIter_add,
        mfLoop_exact, loopIter_guard_false _ _ (by simp [mfGuard])]
    rw [mfLoop_final, show (100001 : Nat) = 100000 + 1 from rfl,
      whileFuel_eq_some _ _ 100000 _ (by rw [h100000]; simp [mfGuard]),
      h100000]
  · rw [socLoop_final, show (10001 : Nat) = 10000 + 1 from rfl,
      whileFuel_eq_some _ _ 10000 _ (by rw [socLoop_exact]; simp [socGuard]),
      socLoop_exact]
  · rw [socppLoop_final, show (10001 : Nat) = 10000 + 1 from rfl,
      whileFuel_eq_some _ _ 10000 _
        (by rw [socppLoop_exact]; simp [socppGuard]),
      socppLoop_exact]
  · have hgf : dtcGuard (loopIter dtcGuard dtcStep 10000
        ⟨0, fun _ => none⟩) = false := by
      simp [dtcGuard, dtcLoop_exact_i]
    rw [show (10001 : Nat) = 10000 + 1 from rfl,
      whileFuel_eq_some _ _ 10000 _ hgf, loopIter_add,
      loopIter_guard_false _ _ hgf]
  · rw [dtcppLoop_final, show (10001 : Nat) = 10000 + 1 from rfl,
      whileFuel_eq_some _ _ 10000 _
        (by rw [dtcppLoop_exact]; simp [dtcppGuard]),
      dtcppLoop_exact]

/-- Witness for C8: the recursion of `fib` converges on the concrete
argument 30. -/
theorem claim_C8_witness : ∃ f, fibFuel f 30 = some (fib 30) :=
  claim_C8.1 30 (by decide)

/-- C9: the C and the C++ string-concatenation programs are
output-equivalent: on every environment they produce identical runs, and the
common printed integer is 88890. -/
theorem claim_C9 : ∀ e : Env,
    string_ops_c_main e = string_ops_cpp_main e
    ∧ (string_ops_c_main e).stdout = "88890\n" := by
  intro e
  rw [string_ops_c_main_eq e, string_ops_cpp_main_eq e]
  exact ⟨rfl, rfl⟩

/-- C10: in `string_ops.c` every buffer access is in bounds: every token
(terminator included) fits in 10 bytes, hence in the 20-byte `buf`; at every
iteration the running length plus the incoming token length stays below the
100000-byte allocation, so every `memcpy` lands in bounds; and the final
terminator position is in bounds too. -/
theorem claim_C10 :
    (∀ i : Nat, i < 10000 → (cToken i).length + 1 ≤ 10
        ∧ (cToken i).length + 1 ≤ 20)
    ∧ (∀ k : Nat, k < 10000 →
        (loopIter socGuard socStep k ⟨0, [], 0⟩).len + (cToken k).length
          < 100000)
    ∧ (loopIter socGuard socStep 10000 ⟨0, [], 0⟩).len < 100000 := by
  refine ⟨?_, ?_, ?_⟩
  · intro i hi
    have h4 := dlen_le_four hi
    rw [cToken_length]
    omega
  · intro k hk
    have hlen : (loopIter socGuard socStep k ⟨0, [], 0⟩).len
        = 0 + ∑ j in Finset.range k, (5 + dlen (0 + j)) := by
      rw [socLoop_upto k 0 [] 0 (by omega)]
    rw [hlen, Nat.zero_add,
      Finset.sum_congr rfl (fun j _ =>
        show 5 + dlen (0 + j) = 5 + dlen j by rw [Nat.zero_add]),
      cToken_length,
      show (∑ j in Finset.range k, (5 + dlen j)) + (5 + dlen k)
          = ∑ j in Finset.range (k + 1), (5 + dlen j)
        from (Finset.sum_range_succ _ k).symm]
    have hmono : ∑ j in Finset.range (k + 1), (5 + dlen j)
        ≤ ∑ j in Finset.range 10000, (5 + dlen j) :=
      Finset.sum_le_sum_of_subset (Finset.range_subset.mpr (by omega))
    rw [token_length_sum] at hmono
    omega
  · rw [socLoop_exact]
    decide

/-- Witness for C10: the bounds at the concrete last iteration. -/
theorem claim_C10_witness :
    ((cToken 9999).length + 1 ≤ 10 ∧ (cToken 9999).length + 1 ≤ 20)
    ∧ (loopIter socGuard socStep 9999 ⟨0, [], 0⟩).len + (cToken 9999).length
        < 100000 :=
  ⟨claim_C10.1 9999 (by decide), claim_C10.2.1 9999 (by decide)⟩
